import Mathlib

/-!
Verification of the premium due-date scheduler of the `baofeizhuizongxitong`
repository (files `app.py`, `notifier.py`, `sheets_db.py`).

The Python code is shallowly embedded: machine floats are modelled as `ℚ`
(every amount the program manipulates is produced by `float(...)` from
decimal text, which is exact on the inputs considered, and the program only
compares amounts to zero), Python `datetime.date` values are modelled as a
`Date` structure of numerals compared lexicographically (the semantics of
`date.__le__`), and the ambient clock read `date.today()` is made an explicit
`today : Date` argument (explicit state passing of the one impure read).
JSON-decoded Python values are modelled by the inductive `Json`.
-/

namespace PremiumTracker

/-! ### Python string primitives -/

/-- Whitespace test used by Python's `str.strip()` (ASCII fragment). -/
def isPySpace (c : Char) : Bool := c.isWhitespace

/-- `str.strip()` on a list of characters: drop whitespace from both ends. -/
def pyStrip (cs : List Char) : List Char :=
  ((cs.dropWhile isPySpace).reverse.dropWhile isPySpace).reverse

/-- Numeric value of a decimal digit character. -/
def digitVal (c : Char) : Nat := c.toNat - '0'.toNat

/-- Value of a list of decimal digit characters, most significant first. -/
def natOfDigits (ds : List Char) : Nat :=
  ds.foldl (fun a c => a * 10 + digitVal c) 0

/-- Python `int(s)` on an already-stripped string: an optional sign followed
by a nonempty run of decimal digits; anything else raises (here: `none`).
(Underscore separators and non-ASCII digits, which CPython also accepts,
do not occur in this program's data and are not modelled.) -/
def parsePyInt (cs : List Char) : Option ℤ :=
  match cs with
  | [] => none
  | '+' :: rest =>
      if rest ≠ [] ∧ rest.all Char.isDigit then some (natOfDigits rest) else none
  | '-' :: rest =>
      if rest ≠ [] ∧ rest.all Char.isDigit then some (-(natOfDigits rest : ℤ)) else none
  | _ =>
      if cs.all Char.isDigit then some (natOfDigits cs) else none

/-- Python `float(s)` on an already-stripped string, on the decimal fragment
`[sign] digits [. digits] [(e|E) [sign] digits]` (with at least one digit in
the mantissa). The value is exact in `ℚ`. Other spellings CPython accepts
(`inf`, `nan`, underscore separators) do not occur in this program's data and
are not modelled; they would coerce to `0.0` only through the `except` arm,
which is the same fallback this model takes. -/
def parsePyFloat (cs : List Char) : Option ℚ :=
  let (sgn, cs₁) : ℚ × List Char :=
    match cs with
    | '+' :: r => (1, r)
    | '-' :: r => (-1, r)
    | r => (1, r)
  let ip := cs₁.takeWhile Char.isDigit
  let cs₂ := cs₁.dropWhile Char.isDigit
  let (fp, cs₃) : List Char × List Char :=
    match cs₂ with
    | '.' :: r => (r.takeWhile Char.isDigit, r.dropWhile Char.isDigit)
    | r => ([], r)
  if ip = [] ∧ fp = [] then none
  else
    let mant : ℚ := (natOfDigits ip : ℚ) + (natOfDigits fp : ℚ) / (10 : ℚ) ^ fp.length
    match cs₃ with
    | [] => some (sgn * mant)
    | e :: r =>
        if e = 'e' ∨ e = 'E' then
          let (eneg, r₁) : Bool × List Char :=
            match r with
            | '+' :: r₂ => (false, r₂)
            | '-' :: r₂ => (true, r₂)
            | r₂ => (false, r₂)
          if r₁ ≠ [] ∧ r₁.all Char.isDigit then
            let ex := natOfDigits r₁
            some (sgn * (if eneg then mant / (10 : ℚ) ^ ex else mant * (10 : ℚ) ^ ex))
          else none
        else none

/-! ### JSON values

`sheets_db.get_policies` stores each premium schedule as a JSON string and
decodes it with `json.loads`; the decoded Python values are modelled by
`Json`. -/

/-- A JSON value (the result of Python's `json.loads`). Numbers are kept
exactly as rationals. -/
inductive Json where
  | null : Json
  | bool (b : Bool) : Json
  | num (q : ℚ) : Json
  | str (s : String) : Json
  | arr (xs : List Json) : Json
  | obj (fields : List (String × Json)) : Json
  deriving Repr

/-! ### Amount coercion

`app.py` lines 17–21 and `notifier.py` lines 20–24 (identical text):

    def _coerce_amount(x):
        try:
            return float(str(x).replace(",", "").replace("$", "").strip())
        except Exception:
            return 0.0
-/

/-- The cleaning pipeline `str.replace(",", "").replace("$", "").strip()`:
every comma and dollar sign is removed, then whitespace is stripped from
both ends. -/
def cleanAmount (s : String) : List Char :=
  pyStrip (s.data.filter fun c => ¬ (c = ',' ∨ c = '$'))

/-- `_coerce_amount` (`app.py` 17–21, `notifier.py` 20–24) on a Python value
`x`. `str(x)` of a string is the string itself; `str` of a number round-trips
through `float` to the same value (CPython reprs are shortest exactly-reading
decimals, and contain no `,` or `$`), so the numeric case returns the number
itself; `str` of `None`/booleans/lists/dicts never parses as a float, so
those fall to the `except` arm's `0.0`. -/
def coerceAmount : Json → ℚ
  | Json.num q => q
  | Json.str s => (parsePyFloat (cleanAmount s)).getD 0
  | _ => 0

/-! ### Dates

`datetime.date` values, compared lexicographically by (year, month, day),
which is exactly `date.__lt__`/`__le__` for in-range fields. -/

/-- A calendar date. -/
structure Date where
  year : Nat
  month : Nat
  day : Nat
  deriving DecidableEq, Repr

/-- Gregorian leap-year rule (as in Python's `calendar.isleap`). -/
def isLeap (y : Nat) : Bool :=
  y % 4 == 0 && (y % 100 != 0 || y % 400 == 0)

/-- `calendar.monthrange(y, m)[1]`: the number of days in month `m` of
year `y`. -/
def lastDayOfMonth (y m : Nat) : Nat :=
  if m = 2 then (if isLeap y then 29 else 28)
  else if m = 4 ∨ m = 6 ∨ m = 9 ∨ m = 11 then 30
  else 31

/-- Python `date` comparison `a <= b`: lexicographic on (year, month, day). -/
def dateLE (a b : Date) : Bool :=
  if a.year ≠ b.year then a.year < b.year
  else if a.month ≠ b.month then a.month < b.month
  else a.day ≤ b.day

/-- `today.replace(day=1) + relativedelta(months=+m)` reduced to its
(year, month) pair: calendar-correct month arithmetic on the month start
(no day overflow is possible since the day is 1). -/
def addMonths (y mo k : Nat) : Nat × Nat :=
  (y + (mo - 1 + k) / 12, (mo - 1 + k) % 12 + 1)

/-- The due date of cycle `m` for a normalized due day `dd`:
the month start of `today` advanced by `m` months, with day-of-month
`min(dd, lastDayOfMonth)` (`app.py` 42–45, `notifier.py` 41–44). -/
def cycleDueDate (today : Date) (dd m : Nat) : Date :=
  let ym := addMonths today.year today.month m
  ⟨ym.1, ym.2, min dd (lastDayOfMonth ym.1 ym.2)⟩

/-- The calendar day before `d` (for valid dates): used to model
`timedelta` subtraction. -/
def prevDay (d : Date) : Date :=
  if 1 < d.day then ⟨d.year, d.month, d.day - 1⟩
  else if 1 < d.month then ⟨d.year, d.month - 1, lastDayOfMonth d.year (d.month - 1)⟩
  else ⟨d.year - 1, 12, 31⟩

/-- `d - timedelta(days=n)`: step back `n` calendar days. -/
def subDays (d : Date) : Nat → Date
  | 0 => d
  | n + 1 => subDays (prevDay d) n

/-! ### Due-day normalization

`notifier.py` 33–37:

    try:
        due_day = int(str(policy.get("due_day") or "15").strip())
    except Exception:
        due_day = 15
    due_day = max(1, min(28, due_day))

`app.py` 31–35 reads `int(str(due_day).strip() or "15")` with the same
`except` arm and clamp. On every `Option String` input (the raw cell is a
string, or the key's value is `None`) the two produce the same result: an
empty or missing value yields 15 through `or "15"` in the one and through
the failing parse of `""`/`"None"` in the other. -/

/-- `policy.get("due_day") or "15"`: a missing or empty raw value is
replaced by the string `"15"` before parsing. -/
def rawDueDayStr : Option String → String
  | none => "15"
  | some s => if s = "" then "15" else s

/-- Normalized due day: parse the raw value as an integer, default to 15 on
a missing value or a failed parse, clamp to `[1, 28]`. -/
def normDueDay (raw : Option String) : Nat :=
  let d : ℤ := (parsePyInt (pyStrip (rawDueDayStr raw).data)).getD 15
  (max 1 (min 28 d)).toNat

/-! ### Schedule normalization and the scan loop

`app.py` 37–39 / `notifier.py` 29–31:

    schedule = [_coerce_amount(a) for a in (premium_schedule or [])]
    schedule += [0.0] * (12 - len(schedule))
    schedule = schedule[:12]

(For a list longer than 12, `12 - len` is negative and the Python padding
list is empty, exactly as truncated `Nat` subtraction gives
`List.replicate 0`.) -/

/-- Coerce every element, pad with `0.0` to 12 entries, truncate to 12. -/
def normalizeSchedule (premium_schedule : List Json) : List ℚ :=
  ((premium_schedule.map coerceAmount) ++
    List.replicate (12 - premium_schedule.length) 0).take 12

/-- The `for m in range(12)` scan (`app.py` 41–50, `notifier.py` 40–48),
over an explicit list of cycle indices: return the first cycle whose amount
is positive and whose due date is on or after `today`; otherwise the
sentinel `(None, 0.0)`. -/
def nextDueLoop (sched : List ℚ) (dd : Nat) (today : Date) :
    List Nat → Option Date × ℚ
  | [] => (none, 0)
  | m :: ms =>
      let dueDt := cycleDueDate today dd m
      let amt := sched.getD m 0
      if 0 < amt ∧ dateLE today dueDt = true then (some dueDt, amt)
      else nextDueLoop sched dd today ms

/-- `find_next_premium` (`app.py` 24–50) = `_next_due_for_policy`'s core
(`notifier.py` 27–48): the two functions are textually the same algorithm.
The ambient clock read `date.today()` inside them is passed explicitly as
`today`. -/
def find_next_premium (premium_schedule : List Json) (due_day : Option String)
    (today : Date) : Option Date × ℚ :=
  nextDueLoop (normalizeSchedule premium_schedule) (normDueDay due_day) today
    (List.range 12)

/-! ### A JSON reader modelling Python's `json.loads`

`get_policies` decodes the `premium_schedule` cell with
`json.loads(row[4] or "[]")`. The reader below covers the JSON grammar
(null, booleans, strict numbers, strings with escapes, arrays, objects);
on any other input it returns `none`, modelling the `ValueError` that
`get_policies` catches. Recursion is driven by a fuel argument large enough
for any input of the given length. -/

/-- JSON whitespace (space, tab, newline, carriage return). -/
def isJsonWs (c : Char) : Bool := c = ' ' ∨ c = '\t' ∨ c = '\n' ∨ c = '\r'

/-- Drop leading JSON whitespace. -/
def skipWs (cs : List Char) : List Char := cs.dropWhile isJsonWs

/-- Single-character string escapes of JSON. -/
def jsonEscChar (c : Char) : Option Char :=
  if c = '"' then some '"'
  else if c = '\\' then some '\\'
  else if c = '/' then some '/'
  else if c = 'b' then some (Char.ofNat 8)
  else if c = 'f' then some (Char.ofNat 12)
  else if c = 'n' then some '\n'
  else if c = 'r' then some (Char.ofNat 13)
  else if c = 't' then some '\t'
  else none

/-- Hexadecimal digit test. -/
def isHexChar (c : Char) : Bool :=
  c.isDigit || decide ('a' ≤ c ∧ c ≤ 'f') || decide ('A' ≤ c ∧ c ≤ 'F')

/-- Value of a hexadecimal digit. -/
def hexVal (c : Char) : Nat :=
  if c.isDigit then c.toNat - '0'.toNat
  else if 'a' ≤ c ∧ c ≤ 'f' then c.toNat - 'a'.toNat + 10
  else if 'A' ≤ c ∧ c ≤ 'F' then c.toNat - 'A'.toNat + 10
  else 0

/-- Read the body of a JSON string literal (the opening quote already
consumed): the decoded characters and the remaining input. -/
def parseJsonStringAux : Nat → List Char → Option (List Char × List Char)
  | 0, _ => none
  | _, [] => none
  | fuel + 1, c :: rest =>
      if c = '"' then some ([], rest)
      else if c = '\\' then
        match rest with
        | [] => none
        | e :: rest₂ =>
            if e = 'u' then
              match rest₂ with
              | a :: b :: c₂ :: d :: rest₃ =>
                  if isHexChar a ∧ isHexChar b ∧ isHexChar c₂ ∧ isHexChar d then
                    match parseJsonStringAux fuel rest₃ with
                    | some (s, r) =>
                        some (Char.ofNat
                          (((hexVal a * 16 + hexVal b) * 16 + hexVal c₂) * 16 + hexVal d)
                          :: s, r)
                    | none => none
                  else none
              | _ => none
            else
              match jsonEscChar e with
              | some ch =>
                  match parseJsonStringAux fuel rest₂ with
                  | some (s, r) => some (ch :: s, r)
                  | none => none
              | none => none
      else
        match parseJsonStringAux fuel rest with
        | some (s, r) => some (c :: s, r)
        | none => none

/-- Mantissa and exponent of a JSON number assembled into an exact `ℚ`. -/
def jsonNumVal (neg : Bool) (ip fp : List Char) (eneg : Bool) (ex : Nat) : ℚ :=
  let mant : ℚ := (natOfDigits ip : ℚ) + (natOfDigits fp : ℚ) / (10 : ℚ) ^ fp.length
  let v : ℚ := if eneg then mant / (10 : ℚ) ^ ex else mant * (10 : ℚ) ^ ex
  if neg then -v else v

/-- Optional exponent part of a JSON number, then assembly. -/
def parseJsonExp (neg : Bool) (ip fp : List Char) (cs : List Char) :
    Option (ℚ × List Char) :=
  match cs with
  | 'e' :: r =>
      match (match r with
             | '+' :: r₂ => (false, r₂)
             | '-' :: r₂ => (true, r₂)
             | r₂ => (false, r₂) : Bool × List Char) with
      | (es, r₁) =>
          let ds := r₁.takeWhile Char.isDigit
          if ds = [] then none
          else some (jsonNumVal neg ip fp es (natOfDigits ds), r₁.dropWhile Char.isDigit)
  | 'E' :: r =>
      match (match r with
             | '+' :: r₂ => (false, r₂)
             | '-' :: r₂ => (true, r₂)
             | r₂ => (false, r₂) : Bool × List Char) with
      | (es, r₁) =>
          let ds := r₁.takeWhile Char.isDigit
          if ds = [] then none
          else some (jsonNumVal neg ip fp es (natOfDigits ds), r₁.dropWhile Char.isDigit)
  | _ => some (jsonNumVal neg ip fp false 0, cs)

/-- A JSON number: `-? (0 | [1-9][0-9]*) (. [0-9]+)? ((e|E) [+-]? [0-9]+)?`. -/
def parseJsonNumber (cs : List Char) : Option (ℚ × List Char) :=
  let (neg, cs₁) : Bool × List Char :=
    match cs with
    | '-' :: r => (true, r)
    | r => (false, r)
  let ip := cs₁.takeWhile Char.isDigit
  let cs₂ := cs₁.dropWhile Char.isDigit
  if ip = [] ∨ (1 < ip.length ∧ ip.headD ' ' = '0') then none
  else
    match cs₂ with
    | '.' :: r =>
        let fp := r.takeWhile Char.isDigit
        if fp = [] then none
        else parseJsonExp neg ip fp (r.dropWhile Char.isDigit)
    | _ => parseJsonExp neg ip [] cs₂

mutual

/-- Read one JSON value. -/
def parseJsonVal : Nat → List Char → Option (Json × List Char)
  | 0, _ => none
  | fuel + 1, cs =>
      match skipWs cs with
      | [] => none
      | c :: rest =>
          if c = 'n' then
            match rest with
            | 'u' :: 'l' :: 'l' :: r => some (Json.null, r)
            | _ => none
          else if c = 't' then
            match rest with
            | 'r' :: 'u' :: 'e' :: r => some (Json.bool true, r)
            | _ => none
          else if c = 'f' then
            match rest with
            | 'a' :: 'l' :: 's' :: 'e' :: r => some (Json.bool false, r)
            | _ => none
          else if c = '"' then
            match parseJsonStringAux (rest.length + 1) rest with
            | some (s, r) => some (Json.str ⟨s⟩, r)
            | none => none
          else if c = '[' then
            match skipWs rest with
            | ']' :: r => some (Json.arr [], r)
            | _ =>
                match parseJsonItems fuel rest with
                | some (xs, r) => some (Json.arr xs, r)
                | none => none
          else if c = '\x7b' then
            match skipWs rest with
            | '\x7d' :: r => some (Json.obj [], r)
            | _ =>
                match parseJsonMembers fuel rest with
                | some (ms, r) => some (Json.obj ms, r)
                | none => none
          else if c.isDigit ∨ c = '-' then
            match parseJsonNumber (c :: rest) with
            | some (q, r) => some (Json.num q, r)
            | none => none
          else none

/-- Read the comma-separated items of a nonempty array, up to and including
the closing bracket. -/
def parseJsonItems : Nat → List Char → Option (List Json × List Char)
  | 0, _ => none
  | fuel + 1, cs =>
      match parseJsonVal fuel cs with
      | none => none
      | some (j, r) =>
          match skipWs r with
          | ',' :: r₂ =>
              match parseJsonItems fuel r₂ with
              | some (xs, r₃) => some (j :: xs, r₃)
              | none => none
          | ']' :: r₂ => some ([j], r₂)
          | _ => none

/-- Read the members of a nonempty object, up to and including the closing
brace. -/
def parseJsonMembers : Nat → List Char → Option (List (String × Json) × List Char)
  | 0, _ => none
  | fuel + 1, cs =>
      match skipWs cs with
      | '"' :: rest =>
          match parseJsonStringAux (rest.length + 1) rest with
          | some (k, r) =>
              match skipWs r with
              | ':' :: r₂ =>
                  match parseJsonVal fuel r₂ with
                  | some (v, r₃) =>
                      match skipWs r₃ with
                      | ',' :: r₄ =>
                          match parseJsonMembers fuel r₄ with
                          | some (ms, r₅) => some ((⟨k⟩, v) :: ms, r₅)
                          | none => none
                      | '\x7d' :: r₄ => some ([(⟨k⟩, v)], r₄)
                      | _ => none
                  | none => none
              | _ => none
          | none => none
      | _ => none

end

/-- `json.loads`: read one value, require only whitespace after it. -/
def jsonParse (s : String) : Option Json :=
  match parseJsonVal (2 * s.length + 4) s.data with
  | some (j, rest) => if skipWs rest = [] then some j else none
  | none => none

/-! ### Policies

The dictionaries produced by `sheets_db.get_policies` (lines 113–124).
`is_tracking` and `due_day` are `Option String` so that a dictionary
without the key (`p.get(...)` with a default) can be distinguished from one
whose cell is the empty string; `get_policies` itself always fills both. -/

/-- A policy record as handed to the UI and the reminder job. -/
structure Policy where
  insured_name : String
  policy_number : String
  carrier : String
  premium_mode : String
  premium_schedule : List Json
  wire_reference : String
  wiring_instructions : String
  is_tracking : Option String
  created_at : String
  due_day : Option String
  deriving Repr

/-- `_next_due_for_policy` (`notifier.py` 27–48) applied to a policy
dictionary: the same scan as `find_next_premium` on the policy's own
schedule and due-day fields. -/
def next_due_for_policy (p : Policy) (today : Date) : Option Date × ℚ :=
  find_next_premium p.premium_schedule p.due_day today

/-- The tracked test `str(p.get("is_tracking", "1")) == "1"` (`notifier.py`
69, `app.py` 65): a missing key defaults to `"1"`; any stored string other
than exactly `"1"` fails the test. -/
def isTracked (is_tracking : Option String) : Bool :=
  (is_tracking.getD "1") == "1"

/-- The per-policy reminder decision of `check_due_premiums` (`notifier.py`
65–92), with the clock read `date.today()` passed explicitly: skip untracked
policies, skip policies with no upcoming due date or non-positive amount,
and fire exactly when `due - timedelta(days=7) == today`. -/
def shouldRemind (p : Policy) (today : Date) : Bool :=
  if isTracked p.is_tracking = false then false
  else
    match next_due_for_policy p today with
    | (some due, amt) => if 0 < amt then decide (subDays due 7 = today) else false
    | (none, _) => false

/-! ### The sheet store (`sheets_db.py`)

The worksheet is modelled as its `get_all_values()` grid: a list of rows of
cell strings, the first row being the header. Mutating calls return the
Python function's boolean result together with the grid after the call. -/

/-- `str(int(bool(is_tracking)))` (`sheets_db.py` 134). -/
def trackingCellValue (b : Bool) : String := if b then "1" else "0"

/-- The row test `len(row) > 1 and row[1] == policy_number`
(`sheets_db.py` 133 and 144). -/
def rowMatches (pn : String) (r : List String) : Bool :=
  decide (1 < r.length) && (r.getD 1 "" == pn)

/-- `ws.update_cell(idx, 8, v)`: write column 8 (0-based index 7) of a row,
extending a short row with empty cells as the sheet grid does. -/
def setTrackingCell (r : List String) (v : String) : List String :=
  (r ++ List.replicate (8 - r.length) "").set 7 v

/-- The scan of `update_policy_tracking` over the rows below the header:
rewrite the tracking cell of the first matching row. -/
def updateRows (pn v : String) : List (List String) → Bool × List (List String)
  | [] => (false, [])
  | r :: rs =>
      if rowMatches pn r then (true, setTrackingCell r v :: rs)
      else ((updateRows pn v rs).1, r :: (updateRows pn v rs).2)

/-- `update_policy_tracking` (`sheets_db.py` 128–136): set `is_tracking` to
`"1"`/`"0"` on the first row whose policy-number column matches; `true` on a
match, `false` (and no change) otherwise. -/
def update_policy_tracking (data : List (List String)) (pn : String)
    (is_tracking : Bool) : Bool × List (List String) :=
  match data with
  | [] => (false, [])
  | header :: rows =>
      ((updateRows pn (trackingCellValue is_tracking) rows).1,
        header :: (updateRows pn (trackingCellValue is_tracking) rows).2)

/-- The scan of `delete_policy` over the rows below the header: remove the
first matching row. -/
def deleteRows (pn : String) : List (List String) → Bool × List (List String)
  | [] => (false, [])
  | r :: rs =>
      if rowMatches pn r then (true, rs)
      else ((deleteRows pn rs).1, r :: (deleteRows pn rs).2)

/-- `delete_policy` (`sheets_db.py` 139–151): delete the first row whose
policy-number column matches; `true` on a match, `false` (and no change)
otherwise. -/
def delete_policy (data : List (List String)) (pn : String) :
    Bool × List (List String) :=
  match data with
  | [] => (false, [])
  | header :: rows => ((deleteRows pn rows).1, header :: (deleteRows pn rows).2)

/-- `(row + [""] * len(HEADERS))[:len(HEADERS)]` (`sheets_db.py` 106): pad a
short row with empty cells and truncate to the 10 header columns. -/
def padRow (r : List String) : List String :=
  (r ++ List.replicate 10 "").take 10

/-- The schedule decode of `get_policies` (`sheets_db.py` 107–112):
`json.loads(row[4] or "[]")`, with a non-list result or a decode error
replaced by the empty list. -/
def parseScheduleCell (cell : String) : List Json :=
  match jsonParse (if cell = "" then "[]" else cell) with
  | some (Json.arr xs) => xs
  | _ => []

/-- The dictionary built for one (already padded) row
(`sheets_db.py` 113–124). -/
def row_to_policy (row : List String) : Policy where
  insured_name := row.getD 0 ""
  policy_number := row.getD 1 ""
  carrier := row.getD 2 ""
  premium_mode := row.getD 3 ""
  premium_schedule := parseScheduleCell (row.getD 4 "")
  wire_reference := row.getD 5 ""
  wiring_instructions := row.getD 6 ""
  is_tracking := some (row.getD 7 "")
  created_at := row.getD 8 ""
  due_day := some (row.getD 9 "")

/-- `not row or all(not c for c in row)` (`sheets_db.py` 104): an empty row
or a row of empty cells is skipped. -/
def isBlankRow (r : List String) : Bool :=
  r.isEmpty || r.all (· == "")

/-- The row loop of `get_policies` (`sheets_db.py` 103–124). -/
def policyRows : List (List String) → List Policy
  | [] => []
  | r :: rs =>
      if isBlankRow r then policyRows rs
      else row_to_policy (padRow r) :: policyRows rs

/-- `get_policies` (`sheets_db.py` 95–125) on the worksheet grid: empty
result when only the header (or nothing) is present, otherwise one policy
per non-blank data row. -/
def get_policies (data : List (List String)) : List Policy :=
  match data with
  | [] => []
  | [_] => []
  | _ :: rows => policyRows rows

/-- The Python `str.isdigit()` test on a character list: nonempty and all
decimal digits (ASCII fragment). -/
def pyIsDigitStr (cs : List Char) : Bool :=
  decide (cs ≠ []) && cs.all Char.isDigit

/-- The due-day cell written by `add_policy` (`sheets_db.py` 90):
`str(int(due_day) if str(due_day).strip().isdigit() else 15)`, taking the
argument in its `str(due_day)` form. No range check is applied. -/
def add_policy_due_day_cell (due_day : String) : String :=
  if pyIsDigitStr (pyStrip due_day.data) then
    Nat.repr (natOfDigits (pyStrip due_day.data))
  else "15"

/-! ### Statement helpers -/

/-- The success condition of cycle `m` in the scan: positive amount and a
due date on or after `today`. -/
abbrev cycleHit (sched : List ℚ) (dd : Nat) (today : Date) (m : Nat) : Prop :=
  0 < sched.getD m 0 ∧ dateLE today (cycleDueDate today dd m) = true

/-- A concrete tracked policy whose next due date evaluated in January 2025
is 2025-01-15 with amount 100: used to exhibit the exact seven-day reminder
window. -/
def remindDemoPolicy : Policy where
  insured_name := "A"
  policy_number := "P-001"
  carrier := "C"
  premium_mode := "Monthly"
  premium_schedule := [Json.num 100]
  wire_reference := ""
  wiring_instructions := ""
  is_tracking := some "1"
  created_at := ""
  due_day := some "15"

/-- The same policy with an empty string in the tracking cell. -/
def remindDemoPolicyEmptyTracking : Policy :=
  { remindDemoPolicy with is_tracking := some "" }

/-! ## Theorems

Batteries marks `Rat.add`, `Rat.mul`, `Rat.inv` and `Rat.sub` irreducible;
concrete amounts here are small explicit rationals, so unfolding them for
`decide` is harmless. -/

attribute [local semireducible] Rat.add Rat.mul Rat.inv Rat.sub

theorem nextDueLoop_spec (sched : List ℚ) (dd : Nat) (today : Date) :
    ∀ ms : List Nat,
      ((∀ m ∈ ms, ¬ cycleHit sched dd today m) ∧
        nextDueLoop sched dd today ms = (none, 0))
      ∨ (∃ pre m post, ms = pre ++ m :: post ∧
          (∀ k ∈ pre, ¬ cycleHit sched dd today k) ∧ cycleHit sched dd today m ∧
          nextDueLoop sched dd today ms =
            (some (cycleDueDate today dd m), sched.getD m 0)) := by
  intro ms
  induction ms with
  | nil => exact Or.inl ⟨by simp, rfl⟩
  | cons m ms ih =>
      by_cases h : cycleHit sched dd today m
      · refine Or.inr ⟨[], m, ms, rfl, by simp, h, ?_⟩
        simp only [nextDueLoop]
        rw [if_pos h]
      · rcases ih with ⟨hall, heq⟩ | ⟨pre, m', post, hms, hpre, hm', heq⟩
        · refine Or.inl ⟨?_, ?_⟩
          · intro k hk
            rcases List.mem_cons.mp hk with rfl | hk
            · exact h
            · exact hall k hk
          · simp only [nextDueLoop]
            rw [if_neg h]
            exact heq
        · refine Or.inr ⟨m :: pre, m', post, by rw [hms, List.cons_append], ?_, hm', ?_⟩
          · intro k hk
            rcases List.mem_cons.mp hk with rfl | hk
            · exact h
            · exact hpre k hk
          · simp only [nextDueLoop]
            rw [if_neg h]
            exact heq

theorem range_split_first {n : Nat} {pre post : List Nat} {m : Nat}
    (h : List.range n = pre ++ m :: post) : m < n ∧ ∀ k, k < m → k ∈ pre := by
  have hm : m ∈ List.range n := by
    rw [h]
    exact List.mem_append_right _ (List.mem_cons_self _ _)
  have hmn : m < n := List.mem_range.mp hm
  have hn : n = pre.length + (post.length + 1) := by
    have hlen := congrArg List.length h
    simp only [List.length_range, List.length_append, List.length_cons] at hlen
    omega
  have hpre : pre = List.range pre.length := by
    have ht : (List.range n).take pre.length = pre := by
      rw [h]
      exact List.take_left pre (m :: post)
    have ht2 : (List.range n).take pre.length = List.range (min pre.length n) :=
      List.take_range _ _
    have hmin : min pre.length n = pre.length := by omega
    rw [hmin] at ht2
    exact ht.symm.trans ht2
  have hm1 : List.range pre.length ++ [pre.length] = pre ++ [m] := by
    have h1 : (List.range n).take (pre.length + 1) = List.range (pre.length + 1) := by
      rw [List.take_range]
      congr 1
      omega
    have h2 : (List.range n).take (pre.length + 1) = pre ++ [m] := by
      rw [h, List.take_append 1]
      rfl
    rw [← List.range_succ, ← h1, h2]
  have hmt : m = pre.length := by
    have h1 := congrArg List.getLast? hm1
    rw [List.getLast?_concat, List.getLast?_concat] at h1
    injection h1 with h2
    exact h2.symm
  refine ⟨hmn, ?_⟩
  intro k hk
  rw [hpre]
  exact List.mem_range.mpr (by omega)

theorem normalizeSchedule_all_zero {premium_schedule : List Json}
    (h : ∀ x ∈ premium_schedule, coerceAmount x = 0) :
    ∀ m, (normalizeSchedule premium_schedule).getD m 0 = 0 := by
  intro m
  have hmem : ∀ q ∈ normalizeSchedule premium_schedule, q = 0 := by
    intro q hq
    have hq' := List.mem_of_mem_take hq
    rcases List.mem_append.mp hq' with hq'' | hq''
    · obtain ⟨x, hx, rfl⟩ := List.mem_map.mp hq''
      exact h x hx
    · exact List.eq_of_mem_replicate hq''
  rw [List.getD_eq_getElem?_getD]
  rcases Nat.lt_or_ge m (normalizeSchedule premium_schedule).length with hlt | hge
  · rw [List.getElem?_eq_getElem hlt]
    exact hmem _ (List.getElem_mem hlt)
  · rw [List.getElem?_eq_none hge]
    rfl

/-- C1: `computeNextDue` (the common core of `_next_due_for_policy` and
`find_next_premium`) returns the pair of the first cycle `m` in `0..11`
whose normalized amount is positive and whose due date — the month start of
`today` advanced by `m` months with day `min(normalizedDueDay,
lastDayOfMonth)`, a date equal to `today` counting as upcoming — is on or
after `today`; if no cycle among the 12 qualifies it returns the sentinel
`(None, 0.0)`; in particular an all-zero schedule yields the sentinel for
every due day and every `today`. -/
theorem claim_c1_next_due (premium_schedule : List Json) (due_day : Option String)
    (today : Date) :
    ((∃ m, m < 12 ∧
        cycleHit (normalizeSchedule premium_schedule) (normDueDay due_day) today m ∧
        (∀ k, k < m →
          ¬ cycleHit (normalizeSchedule premium_schedule) (normDueDay due_day) today k) ∧
        find_next_premium premium_schedule due_day today =
          (some (cycleDueDate today (normDueDay due_day) m),
            (normalizeSchedule premium_schedule).getD m 0))
      ∨ ((∀ m, m < 12 →
            ¬ cycleHit (normalizeSchedule premium_schedule) (normDueDay due_day) today m) ∧
          find_next_premium premium_schedule due_day today = (none, 0)))
    ∧ ((∀ x ∈ premium_schedule, coerceAmount x = 0) →
        find_next_premium premium_schedule due_day today = (none, 0)) := by
  have hspec := nextDueLoop_spec (normalizeSchedule premium_schedule)
    (normDueDay due_day) today (List.range 12)
  constructor
  · rcases hspec with ⟨hall, heq⟩ | ⟨pre, m, post, hms, hpre, hm, heq⟩
    · exact Or.inr ⟨fun m hm => hall m (List.mem_range.mpr hm), heq⟩
    · obtain ⟨hmn, hfirst⟩ := range_split_first hms
      exact Or.inl ⟨m, hmn, hm, fun k hk => hpre k (hfirst k hk), heq⟩
  · intro hzero
    have hz := normalizeSchedule_all_zero hzero
    rcases hspec with ⟨_, heq⟩ | ⟨_, m, _, _, _, hm, _⟩
    · exact heq
    · exact absurd hm.1 (by rw [hz m]; exact lt_irrefl 0)

/-- Witness for C1 at a concrete input: a schedule whose elements all
coerce to zero yields the sentinel. -/
theorem claim_c1_next_due_witness :
    find_next_premium [Json.num 0, Json.str "0"] (some "15") ⟨2025, 1, 10⟩ =
      (none, 0) :=
  (claim_c1_next_due [Json.num 0, Json.str "0"] (some "15") ⟨2025, 1, 10⟩).2
    (by decide)

theorem normalizeSchedule_pad {premium_schedule : List Json}
    (h : premium_schedule.length ≤ 12) :
    normalizeSchedule (premium_schedule ++
        List.replicate (12 - premium_schedule.length) (Json.num 0)) =
      normalizeSchedule premium_schedule := by
  unfold normalizeSchedule
  rw [List.map_append, List.map_replicate]
  have hc : coerceAmount (Json.num 0) = 0 := rfl
  rw [hc, List.length_append, List.length_replicate]
  have h12 : 12 - (premium_schedule.length + (12 - premium_schedule.length)) = 0 := by
    omega
  rw [h12, List.replicate_zero, List.append_nil]

theorem normalizeSchedule_take {premium_schedule : List Json}
    (h : 12 ≤ premium_schedule.length) :
    normalizeSchedule (premium_schedule.take 12) =
      normalizeSchedule premium_schedule := by
  unfold normalizeSchedule
  have hlen : (premium_schedule.take 12).length = 12 := by
    rw [List.length_take]
    omega
  have h12 : 12 - premium_schedule.length = 0 := by omega
  rw [hlen, h12]
  simp [← List.map_take, List.take_take]

/-- C5: evaluating a schedule of length `n < 12` is the same as evaluating
it extended with `12 − n` entries of `0.0`, and evaluating a schedule of
length `n > 12` is the same as evaluating its first 12 entries. -/
theorem claim_c5_pad_truncate (premium_schedule : List Json)
    (due_day : Option String) (today : Date) :
    (premium_schedule.length < 12 →
      find_next_premium premium_schedule due_day today =
        find_next_premium (premium_schedule ++
          List.replicate (12 - premium_schedule.length) (Json.num 0)) due_day today)
    ∧ (12 < premium_schedule.length →
        find_next_premium premium_schedule due_day today =
          find_next_premium (premium_schedule.take 12) due_day today) := by
  constructor
  · intro h
    unfold find_next_premium
    rw [normalizeSchedule_pad (Nat.le_of_lt h)]
  · intro h
    unfold find_next_premium
    rw [normalizeSchedule_take (Nat.le_of_lt h)]

/-- Witness for C5: a length-1 schedule padded to 12, and a length-13
schedule truncated to 12, at concrete inputs. -/
theorem claim_c5_pad_truncate_witness :
    (find_next_premium [Json.num 100] (some "15") ⟨2025, 1, 10⟩ =
      find_next_premium ([Json.num 100] ++ List.replicate 11 (Json.num 0))
        (some "15") ⟨2025, 1, 10⟩)
    ∧ (find_next_premium
          [Json.num 1, Json.num 2, Json.num 3, Json.num 4, Json.num 5, Json.num 6,
            Json.num 7, Json.num 8, Json.num 9, Json.num 10, Json.num 11,
            Json.num 12, Json.num 13] (some "15") ⟨2025, 1, 10⟩ =
        find_next_premium
          ([Json.num 1, Json.num 2, Json.num 3, Json.num 4, Json.num 5, Json.num 6,
            Json.num 7, Json.num 8, Json.num 9, Json.num 10, Json.num 11,
            Json.num 12, Json.num 13].take 12) (some "15") ⟨2025, 1, 10⟩) :=
  ⟨(claim_c5_pad_truncate [Json.num 100] (some "15") ⟨2025, 1, 10⟩).1
      (by decide),
    (claim_c5_pad_truncate
        [Json.num 1, Json.num 2, Json.num 3, Json.num 4, Json.num 5, Json.num 6,
          Json.num 7, Json.num 8, Json.num 9, Json.num 10, Json.num 11,
          Json.num 12, Json.num 13] (some "15") ⟨2025, 1, 10⟩).2
      (by decide)⟩

/-- C2 counterexample: in the source, `today` is not a parameter of
`find_next_premium`/`_next_due_for_policy` — both read the ambient clock
with `date.today()` inside the function body. Modelling that clock read as
an explicit state input, two calls with identical `(schedule, dueDay)`
arguments but different clock readings return different results, so the
function is not determined by its declared parameters alone. -/
theorem claim_c2_determinism_counterexample :
    find_next_premium [Json.num 100] (some "15") ⟨2025, 1, 10⟩ ≠
      find_next_premium [Json.num 100] (some "15") ⟨2025, 2, 20⟩ := by
  decide

/-- C2 amended: the schedule evaluation is deterministic given
`(schedule, dueDay, today)` — it uses no randomness and no state other than
the clock read `date.today()`, which the code performs inside the function
rather than taking `today` as an explicit parameter; with that single
ambient read modelled as an explicit input, calls observing the same
`today` return identical results. -/
theorem claim_c2_determinism (premium_schedule : List Json)
    (due_day : Option String) (t t' : Date) (h : t = t') :
    find_next_premium premium_schedule due_day t =
      find_next_premium premium_schedule due_day t' := by
  rw [h]

/-- Witness for C2 at a concrete input. -/
theorem claim_c2_determinism_witness :
    find_next_premium [Json.num 100] (some "15") ⟨2025, 1, 10⟩ =
      find_next_premium [Json.num 100] (some "15") ⟨2025, 1, 10⟩ :=
  claim_c2_determinism [Json.num 100] (some "15") ⟨2025, 1, 10⟩ ⟨2025, 1, 10⟩ rfl

/-- C3: due-day normalization parses the raw value as an integer, defaults
to 15 on a missing value or a failed parse, and clamps the result to
`[1, 28]`; in particular `"0" ↦ 1`, `"29" ↦ 28`, `"99" ↦ 28`, and
`"abc"`, `""` and a missing value all normalize to 15. -/
theorem claim_c3_due_day_normalization :
    (∀ raw : Option String, 1 ≤ normDueDay raw ∧ normDueDay raw ≤ 28)
    ∧ (∀ (s : String) (z : ℤ), s ≠ "" → parsePyInt (pyStrip s.data) = some z →
        normDueDay (some s) = (max 1 (min 28 z)).toNat)
    ∧ (∀ s : String, s ≠ "" → parsePyInt (pyStrip s.data) = none →
        normDueDay (some s) = 15)
    ∧ normDueDay none = 15
    ∧ normDueDay (some "") = 15
    ∧ normDueDay (some "0") = 1
    ∧ normDueDay (some "29") = 28
    ∧ normDueDay (some "99") = 28
    ∧ normDueDay (some "abc") = 15 := by
  have clamp_bounds : ∀ d : ℤ, 1 ≤ (max 1 (min 28 d)).toNat ∧
      (max 1 (min 28 d)).toNat ≤ 28 := by
    intro d
    omega
  have hsome : ∀ s : String, s ≠ "" → rawDueDayStr (some s) = s := by
    intro s hs
    simp [rawDueDayStr, hs]
  refine ⟨?_, ?_, ?_, by decide, by decide, by decide, by decide, by decide, by decide⟩
  · intro raw
    exact clamp_bounds ((parsePyInt (pyStrip (rawDueDayStr raw).data)).getD 15)
  · intro s z hs hp
    unfold normDueDay
    rw [hsome s hs, hp]
    rfl
  · intro s hs hp
    unfold normDueDay
    rw [hsome s hs, hp]
    rfl

/-- Witness for C3 at a concrete input: a parsable padded numeral is
stripped, parsed and clamped. -/
theorem claim_c3_due_day_normalization_witness :
    normDueDay (some "  7 ") = 7 :=
  claim_c3_due_day_normalization.2.1 "  7 " 7 (by decide) (by decide)

/-- C4 counterexample: `_coerce_amount` does not guarantee a non-negative
result — the string `"-5"` coerces to `-5.0`. -/
theorem claim_c4_coercion_counterexample :
    coerceAmount (Json.str "-5") = -5 ∧ ¬ (0 ≤ coerceAmount (Json.str "-5")) := by
  decide

/-- C4 amended: `_coerce_amount` strips every `$` and `,` before parsing,
returns the parsed float value on success — which may be negative for a
negative input — and returns `0.0` on any parse failure, so no exception
escapes to the caller; it does not force the result to be non-negative. -/
theorem claim_c4_coercion (s : String) :
    (coerceAmount (Json.str s) =
      coerceAmount (Json.str ⟨s.data.filter fun c => ¬ (c = ',' ∨ c = '$')⟩))
    ∧ (parsePyFloat (cleanAmount s) = none → coerceAmount (Json.str s) = 0)
    ∧ (∀ q, parsePyFloat (cleanAmount s) = some q → coerceAmount (Json.str s) = q) := by
  have hstr : ∀ t : String,
      coerceAmount (Json.str t) = (parsePyFloat (cleanAmount t)).getD 0 :=
    fun _ => rfl
  refine ⟨?_, ?_, ?_⟩
  · rw [hstr, hstr]
    have hclean :
        cleanAmount ⟨s.data.filter fun c => ¬ (c = ',' ∨ c = '$')⟩ = cleanAmount s := by
      unfold cleanAmount
      congr 1
      rw [show (String.mk (s.data.filter fun c => decide ¬ (c = ',' ∨ c = '$'))).data =
        s.data.filter (fun c => decide ¬ (c = ',' ∨ c = '$')) from rfl]
      rw [List.filter_filter]
      congr 1
      funext c
      simp
    rw [hclean]
  · intro h
    rw [hstr, h]
    rfl
  · intro q h
    rw [hstr, h]
    rfl

/-- Witness for C4 at concrete inputs: a currency-formatted string parses
with `$` and `,` removed, and an unparsable string falls back to zero. -/
theorem claim_c4_coercion_witness :
    coerceAmount (Json.str "abc") = 0 ∧
      coerceAmount (Json.str "$1,234.50") = 2469 / 2 :=
  ⟨(claim_c4_coercion "abc").2.1 (by decide),
    (claim_c4_coercion "$1,234.50").2.2 (2469 / 2) (by decide)⟩

/-- C6: the per-policy reminder of `check_due_premiums` fires exactly when
the tracking flag passes, the schedule scan yields a due date with positive
amount, and `dueDate − 7 days` equals `today`; and on a concrete policy with
due date `today + 7 days` (2025-01-15 seen from 2025-01-08) it fires on
exactly that day and not one day earlier or later. -/
theorem claim_c6_reminder_exact :
    (∀ (p : Policy) (today : Date),
      shouldRemind p today = true ↔
        isTracked p.is_tracking = true ∧
          ∃ due amt, next_due_for_policy p today = (some due, amt) ∧
            0 < amt ∧ subDays due 7 = today)
    ∧ shouldRemind remindDemoPolicy ⟨2025, 1, 8⟩ = true
    ∧ shouldRemind remindDemoPolicy ⟨2025, 1, 7⟩ = false
    ∧ shouldRemind remindDemoPolicy ⟨2025, 1, 9⟩ = false := by
  refine ⟨?_, by decide, by decide, by decide⟩
  intro p today
  rcases hdue : next_due_for_policy p today with ⟨dueOpt, amt⟩
  by_cases hc : isTracked p.is_tracking = false
  · simp [shouldRemind, hdue, hc]
  · have hT : isTracked p.is_tracking = true := by
      cases hx : isTracked p.is_tracking
      · exact absurd hx hc
      · rfl
    cases dueOpt with
    | none => simp [shouldRemind, hdue, hT]
    | some due =>
        by_cases hA : 0 < amt
        · simp only [shouldRemind, hdue, hT, hA]
          simp [hA]
          constructor
          · intro h
            exact ⟨due, amt, ⟨rfl, rfl⟩, hA, h⟩
          · rintro ⟨due', amt', ⟨rfl, rfl⟩, -, hsub⟩
            exact hsub
        · simp [shouldRemind, hdue, hT, hA]

/-- C7: `update_policy_tracking` and `delete_policy` return `True` exactly
when some data row below the header has a policy-number column matching the
given number; they act on the first matching row; on an unknown policy
number they return `False` and leave the store unchanged (no exception is
possible: the embedded functions are total). -/
theorem claim_c7_store_lookup (data : List (List String)) (pn : String)
    (tr : Bool) :
    ((update_policy_tracking data pn tr).1 = true ↔
      ∃ r ∈ data.drop 1, rowMatches pn r = true)
    ∧ ((delete_policy data pn).1 = true ↔
        ∃ r ∈ data.drop 1, rowMatches pn r = true)
    ∧ ((update_policy_tracking data pn tr).1 = false →
        (update_policy_tracking data pn tr).2 = data)
    ∧ ((delete_policy data pn).1 = false → (delete_policy data pn).2 = data)
    ∧ (∀ (header r : List String) (pre post : List (List String)),
        data = header :: (pre ++ r :: post) →
        (∀ r' ∈ pre, rowMatches pn r' = false) → rowMatches pn r = true →
        update_policy_tracking data pn tr =
          (true, header :: (pre ++ setTrackingCell r (trackingCellValue tr) :: post))
        ∧ delete_policy data pn = (true, header :: (pre ++ post))) := by
  have hupd : ∀ rows : List (List String),
      ((updateRows pn (trackingCellValue tr) rows).1 = true ↔
        ∃ r ∈ rows, rowMatches pn r = true)
      ∧ ((updateRows pn (trackingCellValue tr) rows).1 = false →
          (updateRows pn (trackingCellValue tr) rows).2 = rows) := by
    intro rows
    induction rows with
    | nil => simp [updateRows]
    | cons r rs ih =>
        by_cases h : rowMatches pn r = true
        · simp [updateRows, h]
        · have h' : rowMatches pn r = false := by
            cases hx : rowMatches pn r
            · rfl
            · exact absurd hx h
          constructor
          · simpa [updateRows, h'] using ih.1
          · intro hf
            have hf' : (updateRows pn (trackingCellValue tr) rs).1 = false := by
              simpa [updateRows, h'] using hf
            simp [updateRows, h', ih.2 hf']
  have hdel : ∀ rows : List (List String),
      ((deleteRows pn rows).1 = true ↔ ∃ r ∈ rows, rowMatches pn r = true)
      ∧ ((deleteRows pn rows).1 = false → (deleteRows pn rows).2 = rows) := by
    intro rows
    induction rows with
    | nil => simp [deleteRows]
    | cons r rs ih =>
        by_cases h : rowMatches pn r = true
        · simp [deleteRows, h]
        · have h' : rowMatches pn r = false := by
            cases hx : rowMatches pn r
            · rfl
            · exact absurd hx h
          constructor
          · simpa [deleteRows, h'] using ih.1
          · intro hf
            have hf' : (deleteRows pn rs).1 = false := by
              simpa [deleteRows, h'] using hf
            simp [deleteRows, h', ih.2 hf']
  have hupd_first : ∀ (pre : List (List String)) (r : List String)
      (post : List (List String)),
      (∀ r' ∈ pre, rowMatches pn r' = false) → rowMatches pn r = true →
      updateRows pn (trackingCellValue tr) (pre ++ r :: post) =
        (true, pre ++ setTrackingCell r (trackingCellValue tr) :: post) := by
    intro pre
    induction pre with
    | nil =>
        intro r post _ hr
        simp [updateRows, hr]
    | cons a pre ih =>
        intro r post hpre hr
        have ha : rowMatches pn a = false := hpre a (List.mem_cons_self _ _)
        have := ih r post (fun r' h => hpre r' (List.mem_cons_of_mem _ h)) hr
        simp [updateRows, ha, this]
  have hdel_first : ∀ (pre : List (List String)) (r : List String)
      (post : List (List String)),
      (∀ r' ∈ pre, rowMatches pn r' = false) → rowMatches pn r = true →
      deleteRows pn (pre ++ r :: post) = (true, pre ++ post) := by
    intro pre
    induction pre with
    | nil =>
        intro r post _ hr
        simp [deleteRows, hr]
    | cons a pre ih =>
        intro r post hpre hr
        have ha : rowMatches pn a = false := hpre a (List.mem_cons_self _ _)
        have := ih r post (fun r' h => hpre r' (List.mem_cons_of_mem _ h)) hr
        simp [deleteRows, ha, this]
  cases data with
  | nil =>
      refine ⟨by simp [update_policy_tracking], by simp [delete_policy],
        by simp [update_policy_tracking], by simp [delete_policy], ?_⟩
      intro header r pre post habs
      exact absurd habs (by simp)
  | cons header rows =>
      refine ⟨?_, ?_, ?_, ?_, ?_⟩
      · simpa [update_policy_tracking] using (hupd rows).1
      · simpa [delete_policy] using (hdel rows).1
      · intro hf
        have hf' : (updateRows pn (trackingCellValue tr) rows).1 = false := by
          simpa [update_policy_tracking] using hf
        simp [update_policy_tracking, (hupd rows).2 hf']
      · intro hf
        have hf' : (deleteRows pn rows).1 = false := by
          simpa [delete_policy] using hf
        simp [delete_policy, (hdel rows).2 hf']
      · intro header' r pre post heq hpre hr
        obtain ⟨rfl, rfl⟩ : header = header' ∧ rows = pre ++ r :: post := by
          injection heq with h1 h2
          exact ⟨h1, h2⟩
        constructor
        · simp [update_policy_tracking, hupd_first pre r post hpre hr]
        · simp [delete_policy, hdel_first pre r post hpre hr]

/-- Witness for C7 at a concrete store: a known policy number is updated and
deleted at its (first-matching) row with result `True`; an unknown number
returns `False` and leaves the store unchanged. -/
theorem claim_c7_store_lookup_witness :
    (update_policy_tracking [["h1", "h2"], ["a", "P1"], ["b", "P2"]] "P2" false =
      (true, [["h1", "h2"], ["a", "P1"], ["b", "P2", "", "", "", "", "", "0"]]))
    ∧ (delete_policy [["h1", "h2"], ["a", "P1"], ["b", "P2"]] "P9").2 =
        [["h1", "h2"], ["a", "P1"], ["b", "P2"]] := by
  constructor
  · exact ((claim_c7_store_lookup [["h1", "h2"], ["a", "P1"], ["b", "P2"]] "P2"
      false).2.2.2.2 ["h1", "h2"] ["b", "P2"] [["a", "P1"]] [] rfl (by decide)
      (by decide)).1
  · exact (claim_c7_store_lookup [["h1", "h2"], ["a", "P1"], ["b", "P2"]] "P9"
      false).2.2.2.1 (by decide)

/-- C8 counterexample: a policy whose `is_tracking` field holds the empty
string is NOT treated as tracked — the stored `""` fails the
`str(...) == "1"` test, so the reminder job skips the policy that the
identical policy with `"1"` fires for; the `"1"` default applies only when
the key is absent, never to an empty stored value. -/
theorem claim_c8_tracking_default_counterexample :
    isTracked (some "") = false ∧
      shouldRemind remindDemoPolicyEmptyTracking ⟨2025, 1, 8⟩ = false ∧
      shouldRemind remindDemoPolicy ⟨2025, 1, 8⟩ = true := by
  decide

/-- C8 amended: the reminder job treats a policy whose `is_tracking` key is
missing as tracked (the dictionary lookup defaults to `"1"`), but any
present value other than exactly the string `"1"` — including the empty
string, `"true"`, `"True"` and `"yes"` — is not tracked and the policy is
skipped. -/
theorem claim_c8_tracking_default :
    (∀ (p : Policy) (today : Date) (s : String), p.is_tracking = some s →
      s ≠ "1" → shouldRemind p today = false)
    ∧ isTracked none = true
    ∧ isTracked (some "1") = true
    ∧ isTracked (some "") = false
    ∧ isTracked (some "true") = false
    ∧ isTracked (some "True") = false
    ∧ isTracked (some "yes") = false := by
  refine ⟨?_, by decide, by decide, by decide, by decide, by decide, by decide⟩
  intro p today s hps hs
  have ht : isTracked p.is_tracking = false := by
    rw [show isTracked p.is_tracking = (s == "1") from by rw [isTracked, hps]; rfl]
    exact beq_eq_false_iff_ne.mpr hs
  unfold shouldRemind
  rw [if_pos ht]

/-- Witness for C8 at a concrete input: the value `"yes"` does not count as
tracked. -/
theorem claim_c8_tracking_default_witness :
    shouldRemind
      (⟨"B", "P-002", "C", "Monthly", [Json.num 100], "", "", some "yes", "",
        some "15"⟩ : Policy) ⟨2025, 1, 8⟩ = false :=
  claim_c8_tracking_default.1 _ ⟨2025, 1, 8⟩ "yes" rfl (by decide)

theorem policyRows_eq_filterMap (rows : List (List String)) :
    policyRows rows = rows.filterMap fun r =>
      if isBlankRow r then none else some (row_to_policy (padRow r)) := by
  induction rows with
  | nil => rfl
  | cons r rs ih =>
      by_cases h : isBlankRow r = true
      · simp [policyRows, h, ih]
      · have h' : isBlankRow r = false := by
          cases hx : isBlankRow r
          · rfl
          · exact absurd hx h
        simp [policyRows, h', ih]

/-- C9: `get_policies` never raises on malformed schedule cells — the
returned sequence is one policy per non-blank data row, each row padded to
the header width, and a `premium_schedule` cell that fails to decode or
decodes to a non-list value yields the empty schedule, on which the
downstream scan never produces a due date. -/
theorem claim_c9_get_policies :
    (∀ data : List (List String),
      get_policies data = (data.drop 1).filterMap fun r =>
        if isBlankRow r then none else some (row_to_policy (padRow r)))
    ∧ (∀ cell, jsonParse (if cell = "" then "[]" else cell) = none →
        parseScheduleCell cell = [])
    ∧ (∀ cell j, jsonParse (if cell = "" then "[]" else cell) = some j →
        (∀ xs, j ≠ Json.arr xs) → parseScheduleCell cell = [])
    ∧ (∀ (due_day : Option String) (today : Date),
        find_next_premium [] due_day today = (none, 0))
    ∧ parseScheduleCell "not json" = []
    ∧ parseScheduleCell "5" = []
    ∧ parseScheduleCell "\"x\"" = [] := by
  refine ⟨?_, ?_, ?_, ?_, rfl, rfl, rfl⟩
  · intro data
    cases data with
    | nil => rfl
    | cons h rows =>
        cases rows with
        | nil => rfl
        | cons r rs => exact policyRows_eq_filterMap (r :: rs)
  · intro cell hp
    unfold parseScheduleCell
    rw [hp]
  · intro cell j hp hj
    unfold parseScheduleCell
    rw [hp]
    cases j with
    | arr xs => exact absurd rfl (hj xs)
    | null => rfl
    | bool b => rfl
    | num q => rfl
    | str s => rfl
    | obj fs => rfl
  · intro due_day today
    unfold find_next_premium
    rcases nextDueLoop_spec (normalizeSchedule []) (normDueDay due_day) today
        (List.range 12) with ⟨-, heq⟩ | ⟨-, m, -, -, -, hm, -⟩
    · exact heq
    · exfalso
      have hz := @normalizeSchedule_all_zero []
        (by intro x hx; cases hx) m
      have hlt := hm.1
      rw [hz] at hlt
      exact lt_irrefl 0 hlt

/-- Witness for C9 at a concrete input: the cell `"true"` decodes to a
non-list JSON value and yields the empty schedule. -/
theorem claim_c9_get_policies_witness :
    parseScheduleCell "true" = [] :=
  claim_c9_get_policies.2.2.1 "true" (Json.bool true) rfl
    (fun _ h => Json.noConfusion h)

/-- C10: `add_policy` sanitizes `due_day` only by the digits-only test —
non-digit input (including negative numbers and decimals) is stored as
`"15"`, while out-of-range all-digit values such as 29, 31 or 99 are stored
verbatim with no clamping; the clamp to `[1, 28]` happens only later when
the schedule is evaluated. -/
theorem claim_c10_add_policy_due_day :
    (∀ s : String, pyIsDigitStr (pyStrip s.data) = false →
      add_policy_due_day_cell s = "15")
    ∧ add_policy_due_day_cell "29" = "29"
    ∧ add_policy_due_day_cell "31" = "31"
    ∧ add_policy_due_day_cell "99" = "99"
    ∧ add_policy_due_day_cell "-5" = "15"
    ∧ add_policy_due_day_cell "2.5" = "15"
    ∧ add_policy_due_day_cell "abc" = "15"
    ∧ normDueDay (some "29") = 28
    ∧ normDueDay (some "31") = 28
    ∧ normDueDay (some "99") = 28 := by
  refine ⟨?_, by decide, by decide, by decide, by decide, by decide, by decide,
    by decide, by decide, by decide⟩
  intro s h
  unfold add_policy_due_day_cell
  rw [h]
  simp

/-- Witness for C10 at a concrete input: inner whitespace fails the
digits-only test, so the cell falls back to `"15"`. -/
theorem claim_c10_add_policy_due_day_witness :
    add_policy_due_day_cell " 3 1 " = "15" :=
  claim_c10_add_policy_due_day.1 " 3 1 " (by decide)

end PremiumTracker
